import Mathlib

/-!
Verification of the PGM parallel image-processing repository
(`conversor-de-imagens-threads`): shallow embedding of the filter kernels
(`src/filters.js` and the duplicate copy bundled with `src/sender.js`), the
task partitioner and receive validation (`src/worker.js`), the
synchronization primitives (`src/sync-utils.js`), the wire header
(`pgm-utils`), and the CLI argument checks, together with theorems about
them.

Buffers (`Uint8Array` / `Buffer` contents) are modelled as total maps
`Nat → Nat` from byte index to byte value; a JS `TypedArray` store wraps the
written value modulo 256 (`ToUint8`), which `writeByte` makes explicit.
JS numbers that hold 32-bit integer data are modelled as `Int`.
-/

/-- A store `outputData[i] = v` on a `Uint8Array`: the value is converted
with `ToUint8`, i.e. reduced modulo 2^8. -/
def writeByte (buf : Nat → Nat) (i : Nat) (v : Int) : Nat → Nat :=
  fun j => if j = i then (v % 256).toNat else buf j

namespace Filters

/-- Loop body of `applyNegativeBlock` (`src/filters.js`, lines 19-30):
for `fuel` iterations starting at index `i`, store
`s = L - 1 - r = maxValue - inputData[i]` into `outputData[i]`.
The statistics variables (`minInput` …) only feed a `console.log` and touch
no buffer, so they are omitted. -/
def negLoop (inputData : Nat → Nat) (maxValue : Nat) (outputData : Nat → Nat)
    (i : Nat) (fuel : Nat) : Nat → Nat :=
  match fuel with
  | 0 => outputData
  | fuel' + 1 =>
    let r : Int := inputData i
    let L : Int := (maxValue : Int) + 1
    let s : Int := L - 1 - r
    negLoop inputData maxValue (writeByte outputData i s) (i + 1) fuel'

/-- `applyNegativeBlock(inputData, outputData, width, rowStart, rowEnd, maxValue)`
from `src/filters.js`: processes pixel indices
`[rowStart*width, rowEnd*width)` and returns the updated output buffer
together with the returned pixel count `endPixel - startPixel`.
`inputData` is never assigned to by the source, so only the new output
buffer is produced. -/
def applyNegativeBlock (inputData outputData : Nat → Nat)
    (width rowStart rowEnd : Nat) (maxValue : Nat) : (Nat → Nat) × Nat :=
  let startPixel := rowStart * width
  let endPixel := rowEnd * width
  (negLoop inputData maxValue outputData startPixel (endPixel - startPixel),
   endPixel - startPixel)

/-- Loop body of `applySliceBlock` (`src/filters.js`, lines 65-77): for each
index, if `z <= limite_a || z >= limite_b` store `0`, else store `k = 255`.
The `pixelsInRange`/`pixelsOutRange` counters only feed a `console.log`. -/
def sliceLoop (inputData : Nat → Nat) (limite_a limite_b : Int)
    (outputData : Nat → Nat) (i : Nat) (fuel : Nat) : Nat → Nat :=
  match fuel with
  | 0 => outputData
  | fuel' + 1 =>
    let z : Int := inputData i
    let out : Int := if z ≤ limite_a ∨ z ≥ limite_b then 0 else 255
    sliceLoop inputData limite_a limite_b (writeByte outputData i out) (i + 1) fuel'

/-- `applySliceBlock(inputData, outputData, width, rowStart, rowEnd, limite_a, limite_b)`
from `src/filters.js` lines 53-85: stores `0` when the pixel is outside the
open band `(limite_a, limite_b)` and `k = 255` when inside, over pixel
indices `[rowStart*width, rowEnd*width)`; returns the new output buffer and
`endPixel - startPixel`. -/
def applySliceBlock (inputData outputData : Nat → Nat)
    (width rowStart rowEnd : Nat) (limite_a limite_b : Int) : (Nat → Nat) × Nat :=
  let startPixel := rowStart * width
  let endPixel := rowEnd * width
  (sliceLoop inputData limite_a limite_b outputData startPixel (endPixel - startPixel),
   endPixel - startPixel)

end Filters

namespace Sender

/-- Loop body of the second `applySliceBlock` copy shipped in the repository
(the duplicate filter module bundled after `src/sender.js`, lines 207-216):
if `valor_pixel_original <= limite_a || valor_pixel_original >= limite_b`
store `255`, else store the original pixel value. -/
def sliceLoop (inputData : Nat → Nat) (limite_a limite_b : Int)
    (outputData : Nat → Nat) (i : Nat) (fuel : Nat) : Nat → Nat :=
  match fuel with
  | 0 => outputData
  | fuel' + 1 =>
    let valor : Int := inputData i
    let out : Int := if valor ≤ limite_a ∨ valor ≥ limite_b then 255 else valor
    sliceLoop inputData limite_a limite_b (writeByte outputData i out) (i + 1) fuel'

/-- `applySliceBlock` as implemented by the duplicate filter module bundled
after `src/sender.js` (lines 202-219): stores `255` outside the open band
`(limite_a, limite_b)` and the original value inside. -/
def applySliceBlock (inputData outputData : Nat → Nat)
    (width rowStart rowEnd : Nat) (limite_a limite_b : Int) : (Nat → Nat) × Nat :=
  let startPixel := rowStart * width
  let endPixel := rowEnd * width
  (sliceLoop inputData limite_a limite_b outputData startPixel (endPixel - startPixel),
   endPixel - startPixel)

end Sender

namespace PgmUtils

/-- `struct Task` / `class Task` from `pgm-utils`: a half-open row range. -/
structure Task where
  row_start : Nat
  row_end : Nat
deriving DecidableEq, Repr

end PgmUtils

open PgmUtils (Task)

/-- `createTasks(height, nthreads)` from `src/worker.js` lines 123-138:
`linesPerThread = Math.ceil(height / nthreads)`; for `i` in `0..nthreads-1`
push `Task(i*linesPerThread, min((i+1)*linesPerThread, height))` whenever
`rowStart < height`. `Math.ceil` on the exact rational `height/nthreads`
is ceiling division. -/
def createTasks (height nthreads : Nat) : List Task :=
  let linesPerThread := (height + nthreads - 1) / nthreads
  (List.range nthreads).filterMap (fun i =>
    let rowStart := i * linesPerThread
    let rowEnd := min ((i + 1) * linesPerThread) height
    if rowStart < height then some ⟨rowStart, rowEnd⟩ else none)

/-- Row `r` is covered by task `t`. -/
def inTask (t : Task) (r : Nat) : Prop :=
  t.row_start ≤ r ∧ r < t.row_end

instance (t : Task) (r : Nat) : Decidable (inTask t r) := by
  unfold inTask; infer_instance

namespace SyncUtils

/-- `class Mutex` state from `src/sync-utils.js`: `_locked` and `_waitQueue`
(the queue holds the `resolve` callbacks of suspended `lock()` callers,
modelled as abstract waiter tokens). -/
structure Mutex where
  locked : Bool
  waitQueue : List Nat
deriving DecidableEq, Repr

/-- `new Mutex()`: `_locked = false`, `_waitQueue = []`. -/
def Mutex.init : Mutex :=
  { locked := false, waitQueue := [] }

/-- `Mutex.unlock()` (`src/sync-utils.js` lines 27-38). The JS function
first checks `_locked` and throws before touching any field, so the error
case returns the state unmodified (`some msg` models the thrown `Error`).
Otherwise, if waiters are queued the head waiter is resumed (it now holds
the lock, `_locked` stays `true`); else `_locked` becomes `false`. -/
def Mutex.unlock (m : Mutex) : Option String × Mutex :=
  if m.locked = false then
    (some "Tentativa de unlock em mutex não locked", m)
  else if m.waitQueue.length > 0 then
    (none, { m with waitQueue := m.waitQueue.tail })
  else
    (none, { m with locked := false })

/-- `class Semaphore` state from `src/sync-utils.js`: `_count` and
`_waitQueue` (suspended `wait()` callers as abstract tokens). -/
structure Semaphore where
  count : Nat
  waitQueue : List Nat
deriving DecidableEq, Repr

/-- `new Semaphore(initialCount)`. -/
def Semaphore.init (initialCount : Nat) : Semaphore :=
  { count := initialCount, waitQueue := [] }

/-- `Semaphore.wait()` called by waiter `w` (lines 73-82): if `_count > 0`,
decrement and proceed immediately (`true`); otherwise the caller is pushed
on `_waitQueue` and blocks (`false`). -/
def Semaphore.wait (s : Semaphore) (w : Nat) : Semaphore × Bool :=
  if s.count > 0 then
    ({ s with count := s.count - 1 }, true)
  else
    ({ s with waitQueue := s.waitQueue ++ [w] }, false)

/-- `Semaphore.signal()` (lines 87-94): resume the head waiter if one is
queued, else increment `_count`. -/
def Semaphore.signal (s : Semaphore) : Semaphore :=
  if s.waitQueue.length > 0 then
    { s with waitQueue := s.waitQueue.tail }
  else
    { s with count := s.count + 1 }

/-- `class CompletionCoordinator` state from `src/sync-utils.js` lines
198-204: `remainingTasks` (a JS number that may go negative, hence `Int`),
the `completed` flag, and the `semDone` semaphore (`new Semaphore(0)`).
The internal `mutex` serializes `taskCompleted` bodies, so the state seen
by consecutive calls is sequential; the mutex field itself is free/held
only transiently inside each call and is omitted from the persistent
state. -/
structure CompletionCoordinator where
  remainingTasks : Int
  completed : Bool
  semDone : Semaphore
deriving DecidableEq, Repr

/-- `new CompletionCoordinator(totalTasks)`. -/
def CompletionCoordinator.init (totalTasks : Int) : CompletionCoordinator :=
  { remainingTasks := totalTasks, completed := false, semDone := Semaphore.init 0 }

/-- `CompletionCoordinator.taskCompleted()` (lines 219-227): under the
mutex, decrement `remainingTasks`; if `remainingTasks <= 0 && !completed`,
set `completed` and `semDone.signal()`. The returned `Bool` records whether
this call invoked `signal`. -/
def CompletionCoordinator.taskCompleted (c : CompletionCoordinator) :
    CompletionCoordinator × Bool :=
  let remaining := c.remainingTasks - 1
  if remaining ≤ 0 ∧ c.completed = false then
    ({ remainingTasks := remaining, completed := true,
       semDone := c.semDone.signal }, true)
  else
    ({ c with remainingTasks := remaining }, false)

/-- The coordinator state after `k` sequential `taskCompleted()` calls. -/
def CompletionCoordinator.afterCalls (c : CompletionCoordinator) : Nat → CompletionCoordinator
  | 0 => c
  | k + 1 => (CompletionCoordinator.afterCalls c k).taskCompleted.1

/-- `CompletionCoordinator.waitForCompletion()` (lines 232-234) is
`semDone.wait()`: the returned `Bool` is `true` when the caller proceeds
immediately and `false` when it suspends on the semaphore queue. -/
def CompletionCoordinator.waitForCompletion (c : CompletionCoordinator) (w : Nat) :
    CompletionCoordinator × Bool :=
  let r := c.semDone.wait w
  ({ c with semDone := r.1 }, r.2)

end SyncUtils

namespace PgmUtils

/-- `Buffer.writeInt32LE(v, off)`: the 32-bit two's-complement little-endian
byte group of `v`. JS computes `v & 0xffffffff`; on `Int` this is
`v.emod 2^32`, then the four base-256 digits, least significant first. -/
def writeInt32LE (v : Int) : List Nat :=
  let u := (v % 4294967296).toNat
  [u % 256, u / 256 % 256, u / 65536 % 256, u / 16777216 % 256]

/-- `Buffer.readInt32LE(off)` over four bytes `b0..b3` (least significant
first): recompose the unsigned value and re-interpret as a signed 32-bit
integer. -/
def readInt32LE (b0 b1 b2 b3 : Nat) : Int :=
  let u := b0 + 256 * b1 + 65536 * b2 + 16777216 * b3
  if u < 2147483648 then (u : Int) else (u : Int) - 4294967296

/-- `class Header` from `pgm-utils`: six 32-bit signed integer fields. -/
structure Header where
  w : Int
  h : Int
  maxv : Int
  mode : Int
  t1 : Int
  t2 : Int
deriving DecidableEq, Repr

/-- `Header.toBuffer()` (`pgm-utils`, lines 44-53): a 24-byte buffer holding
`w, h, maxv, mode, t1, t2` as little-endian 32-bit signed integers at
offsets 0, 4, 8, 12, 16, 20. -/
def Header.toBuffer (hd : Header) : List Nat :=
  writeInt32LE hd.w ++ writeInt32LE hd.h ++ writeInt32LE hd.maxv ++
  writeInt32LE hd.mode ++ writeInt32LE hd.t1 ++ writeInt32LE hd.t2

/-- `Header.fromBuffer(buffer)` (`pgm-utils`, lines 58-65): read the six
fields back with `readInt32LE` at offsets 0, 4, 8, 12, 16, 20 (byte `i` of
the buffer is `buf.getD i 0`). -/
def Header.fromBuffer (buf : List Nat) : Header :=
  { w := readInt32LE (buf.getD 0 0) (buf.getD 1 0) (buf.getD 2 0) (buf.getD 3 0)
    h := readInt32LE (buf.getD 4 0) (buf.getD 5 0) (buf.getD 6 0) (buf.getD 7 0)
    maxv := readInt32LE (buf.getD 8 0) (buf.getD 9 0) (buf.getD 10 0) (buf.getD 11 0)
    mode := readInt32LE (buf.getD 12 0) (buf.getD 13 0) (buf.getD 14 0) (buf.getD 15 0)
    t1 := readInt32LE (buf.getD 16 0) (buf.getD 17 0) (buf.getD 18 0) (buf.getD 19 0)
    t2 := readInt32LE (buf.getD 20 0) (buf.getD 21 0) (buf.getD 22 0) (buf.getD 23 0) }

/-- `class PGM` from `pgm-utils`: image metadata plus its pixel bytes. -/
structure PGM where
  w : Int
  h : Int
  maxv : Int
  data : List Nat
deriving DecidableEq, Repr

end PgmUtils

namespace WorkerMain

open PgmUtils

/-- Node `buffer.slice(start, end)` for `start : Nat`, `end : Int`
(the end bound `24 + header.w*header.h` can be negative or beyond the
buffer): the end index is clamped to `[0, length]`, and an end not past
`start` yields an empty buffer. -/
def jsSlice (l : List Nat) (s : Nat) (e : Int) : List Nat :=
  let eClamped : Nat := min (max e 0).toNat l.length
  (l.take eClamped).drop s

/-- The validation performed by `receiveImageData` (`src/worker.js` lines
85-110) once the stream has ended and all chunks are concatenated into
`fullBuffer`: require at least 24 header bytes, parse the `Header`, take
`fullBuffer.slice(24, 24 + w*h)` as the image data, and require its length
to equal `w*h`; on success build the `PGM`. Errors carry the thrown
messages. -/
def receiveImageData (fullBuffer : List Nat) : Except String PGM :=
  if fullBuffer.length < 24 then
    .error "Dados insuficientes para cabeçalho"
  else
    let header := Header.fromBuffer (fullBuffer.take 24)
    let expectedDataSize : Int := header.w * header.h
    let imageData := jsSlice fullBuffer 24 (24 + expectedDataSize)
    if (imageData.length : Int) ≠ expectedDataSize then
      .error "Dados da imagem incompletos"
    else
      .ok { w := header.w, h := header.h, maxv := header.maxv, data := imageData }

/-- The digit-prefix step of ECMAScript `parseInt(s)` (radix 10): the
maximal leading run of decimal digits, `none` (NaN) when it is empty. -/
def parseIntDigits (cs : List Char) : Option Nat :=
  let ds := cs.takeWhile (fun c => c.isDigit)
  if ds.isEmpty then none
  else some (ds.foldl (fun acc c => acc * 10 + (c.toNat - 48)) 0)

/-- ECMAScript `parseInt(s)` with radix 10 on ordinary strings: skip
leading spaces, an optional sign, then the maximal digit run; `none`
models the `NaN` result. -/
def parseIntJS (s : String) : Option Int :=
  let cs := s.toList.dropWhile (fun c => c = ' ')
  match cs with
  | '-' :: rest => (parseIntDigits rest).map (fun n => -(n : Int))
  | '+' :: rest => (parseIntDigits rest).map (fun n => (n : Int))
  | rest => (parseIntDigits rest).map (fun n => (n : Int))

/-- The `nthreads` value selected by `parseArgs` (`src/worker.js` line 45,
mode `negativo`): `args.length >= 4 ? parseInt(args[3]) : 4`. `none` is the
JS `NaN`. -/
def parseNthreads (arg : Option String) : Option Int :=
  match arg with
  | none => some 4
  | some s => parseIntJS s

/-- The range check of `parseArgs` (`src/worker.js` lines 63-66):
`if (nthreads < 1 || nthreads > 32) process.exit(1)`. In JS both
`NaN < 1` and `NaN > 32` are `false`, so a `NaN` value is not rejected. -/
def nthreadsRejected (n : Option Int) : Bool :=
  match n with
  | none => false
  | some v => decide (v < 1) || decide (v > 32)

end WorkerMain

/-! ## Loop lemmas for the per-pixel kernels

All three kernels are instances of one store loop: for `fuel` consecutive
indices starting at `i`, store a value computed from `inputData` at the
same index. -/

/-- Generic per-index store loop subsuming the three filter loops. -/
def storeLoop (val : Nat → Int) (outputData : Nat → Nat) (i fuel : Nat) : Nat → Nat :=
  match fuel with
  | 0 => outputData
  | fuel' + 1 => storeLoop val (writeByte outputData i (val i)) (i + 1) fuel'

theorem Filters.negLoop_eq_storeLoop (inputData : Nat → Nat) (maxValue : Nat)
    (outputData : Nat → Nat) (i fuel : Nat) :
    Filters.negLoop inputData maxValue outputData i fuel =
      storeLoop (fun j => (maxValue : Int) + 1 - 1 - inputData j) outputData i fuel := by
  induction fuel generalizing outputData i with
  | zero => rfl
  | succ fuel' ih => simp [Filters.negLoop, storeLoop, ih]

theorem Filters.sliceLoop_eq_storeLoop (inputData : Nat → Nat) (a b : Int)
    (outputData : Nat → Nat) (i fuel : Nat) :
    Filters.sliceLoop inputData a b outputData i fuel =
      storeLoop (fun j => if (inputData j : Int) ≤ a ∨ (inputData j : Int) ≥ b then 0 else 255)
        outputData i fuel := by
  induction fuel generalizing outputData i with
  | zero => rfl
  | succ fuel' ih => simp [Filters.sliceLoop, storeLoop, ih]

theorem Sender.bundledSliceLoop_eq_storeLoop (inputData : Nat → Nat) (a b : Int)
    (outputData : Nat → Nat) (i fuel : Nat) :
    Sender.sliceLoop inputData a b outputData i fuel =
      storeLoop
        (fun j => if (inputData j : Int) ≤ a ∨ (inputData j : Int) ≥ b then 255 else inputData j)
        outputData i fuel := by
  induction fuel generalizing outputData i with
  | zero => rfl
  | succ fuel' ih => simp [Sender.sliceLoop, storeLoop, ih]

theorem storeLoop_frame (val : Nat → Int) (outputData : Nat → Nat) (i fuel j : Nat)
    (h : j < i ∨ i + fuel ≤ j) : storeLoop val outputData i fuel j = outputData j := by
  induction fuel generalizing outputData i with
  | zero => rfl
  | succ fuel' ih =>
    rw [storeLoop, ih _ (i + 1) (by omega), writeByte]
    simp only [if_neg (by omega : ¬ j = i)]

theorem storeLoop_value (val : Nat → Int) (outputData : Nat → Nat) (i fuel j : Nat)
    (h1 : i ≤ j) (h2 : j < i + fuel) :
    storeLoop val outputData i fuel j = ((val j) % 256).toNat := by
  induction fuel generalizing outputData i with
  | zero => omega
  | succ fuel' ih =>
    rw [storeLoop]
    rcases Nat.eq_or_lt_of_le h1 with heq | hlt
    · subst heq
      rw [storeLoop_frame _ _ _ _ _ (by omega)]
      simp [writeByte]
    · exact ih _ (i + 1) (by omega) (by omega)

/-! ## Claim theorems: task partitioning -/

/-- `r` is strictly below the end of its own stride block. -/
theorem lt_div_succ_mul (r L : Nat) (hL : 0 < L) : r < (r / L + 1) * L := by
  have h := Nat.div_add_mod r L
  have h2 := Nat.mod_lt r hL
  calc r = L * (r / L) + r % L := h.symm
    _ < L * (r / L) + L := by omega
    _ = (r / L + 1) * L := by ring

/-- Ceiling division is at least 1 and covers `H` with `W` blocks. -/
theorem ceil_div_facts (H W : Nat) (hH : 1 ≤ H) (hW : 1 ≤ W) :
    1 ≤ (H + W - 1) / W ∧ H ≤ W * ((H + W - 1) / W) := by
  have hrw : (H + W - 1) / W = (H - 1) / W + 1 := by
    have h : H + W - 1 = (H - 1) + W := by omega
    rw [h, Nat.add_div_right _ (by omega)]
  have h2 : H - 1 < ((H - 1) / W + 1) * W := lt_div_succ_mul (H - 1) W (by omega)
  constructor
  · rw [hrw]
    exact Nat.le_add_left 1 _
  · rw [hrw, Nat.mul_comm]
    omega

/-- C2: for `H ≥ 1` and `W ≥ 1`, the tasks generated by `createTasks` are
pairwise disjoint half-open row ranges whose union is exactly `[0, H)`. -/
theorem createTasks_partition (H W : Nat) (hH : 1 ≤ H) (hW : 1 ≤ W) :
    (createTasks H W).Pairwise (fun t1 t2 => ∀ r, ¬(inTask t1 r ∧ inTask t2 r)) ∧
    (∀ r, (∃ t ∈ createTasks H W, inTask t r) ↔ r < H) := by
  obtain ⟨hL1, hHW⟩ := ceil_div_facts H W hH hW
  constructor
  · simp only [createTasks]
    refine List.pairwise_filterMap.mpr ?_
    refine (List.pairwise_lt_range W).imp ?_
    intro i j hij t1 ht1 t2 ht2 r hr
    obtain ⟨⟨hr1, hr2⟩, hr3, hr4⟩ := hr
    split_ifs at ht1 with hc1
    · split_ifs at ht2 with hc2
      · simp only [Option.mem_def, Option.some.injEq] at ht1 ht2
        subst ht1; subst ht2
        simp only [inTask] at hr1 hr2 hr3 hr4
        have hmul : (i + 1) * ((H + W - 1) / W) ≤ j * ((H + W - 1) / W) :=
          Nat.mul_le_mul_right _ (by omega)
        omega
      · simp at ht2
    · simp at ht1
  · intro r
    constructor
    · rintro ⟨t, ht, hr1, hr2⟩
      simp only [createTasks, List.mem_filterMap, List.mem_range] at ht
      obtain ⟨i, hi, hf⟩ := ht
      split_ifs at hf with hc
      simp only [Option.some.injEq] at hf
      subst hf
      simp only at hr2
      omega
    · intro hrH
      set L := (H + W - 1) / W with hLdef
      have hiW : r / L < W := by
        rw [Nat.div_lt_iff_lt_mul (by omega)]
        calc r < H := hrH
          _ ≤ W * L := hHW
      have hstart : (r / L) * L ≤ r := Nat.div_mul_le_self r L
      have hend : r < (r / L + 1) * L := lt_div_succ_mul r L (by omega)
      refine ⟨⟨(r / L) * L, min ((r / L + 1) * L) H⟩, ?_, hstart, ?_⟩
      · simp only [createTasks, List.mem_filterMap, List.mem_range]
        refine ⟨r / L, hiW, ?_⟩
        rw [← hLdef, if_pos (by omega)]
      · simp only [inTask]
        omega

/-- C2 witness: the partition property at `H = 10`, `W = 4`. -/
theorem createTasks_partition_witness :
    1 ≤ 10 ∧ 1 ≤ 4 ∧
    ((createTasks 10 4).Pairwise (fun t1 t2 => ∀ r, ¬(inTask t1 r ∧ inTask t2 r)) ∧
     (∀ r, (∃ t ∈ createTasks 10 4, inTask t r) ↔ r < 10)) :=
  ⟨by omega, by omega, createTasks_partition 10 4 (by omega) (by omega)⟩

/-! ## Claim theorems: completion coordinator -/

namespace SyncUtils

/-- Every `taskCompleted()` call decrements `remainingTasks`, in both
branches of the signal test. -/
theorem taskCompleted_remaining (c : CompletionCoordinator) :
    c.taskCompleted.1.remainingTasks = c.remainingTasks - 1 := by
  simp only [CompletionCoordinator.taskCompleted]
  split_ifs <;> rfl

/-- The `completed` flag after a `taskCompleted()` call: it stays set once
set, and becomes set exactly when the decremented counter reaches `≤ 0`. -/
theorem taskCompleted_completed_iff (c : CompletionCoordinator) :
    (c.taskCompleted.1.completed = true) ↔
      (c.completed = true ∨ c.remainingTasks ≤ 1) := by
  simp only [CompletionCoordinator.taskCompleted]
  split_ifs with h
  · simp only [true_iff]
    right
    omega
  · rw [Classical.not_and_iff_or_not_not] at h
    rcases h with h | h
    · simp only
      constructor
      · intro hc
        exact Or.inl hc
      · intro hc
        rcases hc with hc | hc
        · exact hc
        · omega
    · have hb : c.completed = true := by
        rcases Bool.eq_false_or_eq_true c.completed with hb | hb
        · exact hb
        · exact absurd hb h
      simp [hb]

/-- The signal is fired by a `taskCompleted()` call exactly when the
counter drops to `≤ 0` on a coordinator that had not yet completed. -/
theorem taskCompleted_flag_iff (c : CompletionCoordinator) :
    (c.taskCompleted.2 = true) ↔ (c.remainingTasks ≤ 1 ∧ c.completed = false) := by
  simp only [CompletionCoordinator.taskCompleted]
  split_ifs with h
  · simp only [true_iff]
    exact ⟨by omega, h.2⟩
  · rw [Classical.not_and_iff_or_not_not] at h
    simp only [Bool.false_eq_true, false_iff, Classical.not_and_iff_or_not_not]
    rcases h with h | h
    · left
      omega
    · right
      exact h

/-- Invariant of the coordinator after `k` sequential `taskCompleted()`
calls on `init N`: `remainingTasks = N - k`, and `completed` holds exactly
when `N ≤ k` — provided `N ≥ 1`. -/
theorem afterCalls_invariant (N : Int) (hN : 1 ≤ N) (k : Nat) :
    ((CompletionCoordinator.init N).afterCalls k).remainingTasks = N - k ∧
      (((CompletionCoordinator.init N).afterCalls k).completed = true ↔ N ≤ k) := by
  induction k with
  | zero =>
    constructor
    · show (CompletionCoordinator.init N).remainingTasks = N - ((0 : Nat) : Int)
      simp [CompletionCoordinator.init]
    · show ((CompletionCoordinator.init N).completed = true) ↔ N ≤ ((0 : Nat) : Int)
      simp only [CompletionCoordinator.init, Bool.false_eq_true, false_iff, not_le]
      omega
  | succ k ih =>
    obtain ⟨ih1, ih2⟩ := ih
    have estep : (CompletionCoordinator.init N).afterCalls (k + 1)
        = ((CompletionCoordinator.init N).afterCalls k).taskCompleted.1 := rfl
    constructor
    · rw [estep, taskCompleted_remaining, ih1]
      push_cast
      ring
    · rw [estep, taskCompleted_completed_iff, ih1, ih2]
      push_cast
      omega

end SyncUtils

/-- C3 counterexample: read over all `N ≥ 0`, the claim asserts that a
coordinator initialized with `totalTasks = N` has completed after exactly
`N` calls; at `N = 0`, `k = 0` that predicts `completed` already at
construction, but the code constructs `completed = false` (and only
signals on the next call, per C6). -/
theorem taskCompleted_claim_fails_at_zero :
    ¬ (((SyncUtils.CompletionCoordinator.init 0).afterCalls 0).completed = true
        ↔ (0 : Int) ≤ ((0 : Nat) : Int)) := by
  decide

/-- C3 amended (restricted to `N ≥ 1`): the `completed` flag is `false`
before the `N`-th `taskCompleted()` call and `true` from the `N`-th call
on (so it transitions exactly once, on exactly the `N`-th call); the call
numbered `k + 1` invokes `semDone.signal` exactly when `k + 1 = N`; and
every call decrements `remainingTasks` (to `N - k` after `k` calls), also
past the signal. -/
theorem taskCompleted_signals_exactly_once (N : Int) (hN : 1 ≤ N) :
    (∀ k : Nat, (((SyncUtils.CompletionCoordinator.init N).afterCalls k).completed = true
        ↔ N ≤ k)) ∧
    (∀ k : Nat, (((SyncUtils.CompletionCoordinator.init N).afterCalls k).taskCompleted.2 = true
        ↔ (k : Int) + 1 = N)) ∧
    (∀ k : Nat, ((SyncUtils.CompletionCoordinator.init N).afterCalls k).remainingTasks
        = N - k) := by
  refine ⟨fun k => (SyncUtils.afterCalls_invariant N hN k).2, fun k => ?_,
    fun k => (SyncUtils.afterCalls_invariant N hN k).1⟩
  obtain ⟨h1, h2⟩ := SyncUtils.afterCalls_invariant N hN k
  rw [SyncUtils.taskCompleted_flag_iff, h1]
  have h2' : (((SyncUtils.CompletionCoordinator.init N).afterCalls k).completed = false)
      ↔ ¬ (N ≤ (k : Int)) := by
    rw [← h2]
    rcases Bool.eq_false_or_eq_true
      ((SyncUtils.CompletionCoordinator.init N).afterCalls k).completed with hb | hb <;>
      simp [hb]
  rw [h2']
  omega

/-- C3 witness: the amended statement at `N = 3`. -/
theorem taskCompleted_signals_exactly_once_witness :
    (1 : Int) ≤ 3 ∧
    ((∀ k : Nat, (((SyncUtils.CompletionCoordinator.init 3).afterCalls k).completed = true
        ↔ (3 : Int) ≤ k)) ∧
     (∀ k : Nat, (((SyncUtils.CompletionCoordinator.init 3).afterCalls k).taskCompleted.2 = true
        ↔ (k : Int) + 1 = 3)) ∧
     (∀ k : Nat, ((SyncUtils.CompletionCoordinator.init 3).afterCalls k).remainingTasks
        = 3 - k)) :=
  ⟨by norm_num, taskCompleted_signals_exactly_once 3 (by norm_num)⟩

/-- C6: a coordinator constructed with `totalTasks = 0` starts with
`remainingTasks = 0`, `completed = false`, and a `semDone` semaphore at
count `0` with no queued waiters, so `waitForCompletion()` called before
any `taskCompleted()` suspends (and nothing else ever signals in a
zero-task run: the first `taskCompleted()` call is the one that signals,
as the last conjunct shows). -/
theorem coordinator_zero_tasks_behavior :
    (SyncUtils.CompletionCoordinator.init 0).remainingTasks = 0 ∧
    (SyncUtils.CompletionCoordinator.init 0).completed = false ∧
    (SyncUtils.CompletionCoordinator.init 0).semDone = SyncUtils.Semaphore.init 0 ∧
    ((SyncUtils.CompletionCoordinator.init 0).waitForCompletion 0).2 = false ∧
    (SyncUtils.CompletionCoordinator.init 0).taskCompleted.2 = true := by
  refine ⟨rfl, rfl, rfl, rfl, rfl⟩

/-! ## Claim theorems: mutex misuse detection -/

/-- C7: `Mutex.unlock()` throws exactly when the lock is not held, and in
that case the mutex state (held flag and waiter queue) is untouched;
`unlock()` on a held mutex does not throw. -/
theorem mutex_unlock_spec (m : SyncUtils.Mutex) :
    (m.locked = false →
      m.unlock = (some "Tentativa de unlock em mutex não locked", m)) ∧
    (m.locked = true → m.unlock.1 = none) := by
  constructor
  · intro h
    simp [SyncUtils.Mutex.unlock, h]
  · intro h
    rw [SyncUtils.Mutex.unlock, if_neg (by simp [h])]
    split_ifs <;> rfl

/-- C7 witness: unlocking a fresh (unheld) mutex errors and leaves it
unchanged. -/
theorem mutex_unlock_spec_witness :
    SyncUtils.Mutex.init.locked = false ∧
    SyncUtils.Mutex.init.unlock
      = (some "Tentativa de unlock em mutex não locked", SyncUtils.Mutex.init) :=
  ⟨rfl, (mutex_unlock_spec SyncUtils.Mutex.init).1 rfl⟩

/-! ## Claim theorems: wire header round trip -/

/-- Reading back the four little-endian base-256 digits of a 32-bit signed
integer reproduces it. -/
theorem readInt32LE_digits (v : Int) (h1 : -2147483648 ≤ v) (h2 : v < 2147483648) :
    PgmUtils.readInt32LE ((v % 4294967296).toNat % 256)
      ((v % 4294967296).toNat / 256 % 256)
      ((v % 4294967296).toNat / 65536 % 256)
      ((v % 4294967296).toNat / 16777216 % 256) = v := by
  simp only [PgmUtils.readInt32LE]
  split_ifs with h <;> omega

/-- C5: serializing a `Header` whose six fields are 32-bit signed integers
and deserializing the 24-byte buffer reproduces all six fields. -/
theorem header_roundtrip (hd : PgmUtils.Header)
    (hw1 : -2147483648 ≤ hd.w) (hw2 : hd.w < 2147483648)
    (hh1 : -2147483648 ≤ hd.h) (hh2 : hd.h < 2147483648)
    (hm1 : -2147483648 ≤ hd.maxv) (hm2 : hd.maxv < 2147483648)
    (hd1 : -2147483648 ≤ hd.mode) (hd2 : hd.mode < 2147483648)
    (ht1 : -2147483648 ≤ hd.t1) (ht2 : hd.t1 < 2147483648)
    (hu1 : -2147483648 ≤ hd.t2) (hu2 : hd.t2 < 2147483648) :
    PgmUtils.Header.fromBuffer (PgmUtils.Header.toBuffer hd) = hd := by
  obtain ⟨w, h, maxv, mode, t1, t2⟩ := hd
  simp only [PgmUtils.Header.toBuffer, PgmUtils.Header.fromBuffer, PgmUtils.writeInt32LE,
    List.cons_append, List.nil_append, List.getD_cons_zero, List.getD_cons_succ] at *
  simp only [PgmUtils.Header.mk.injEq]
  refine ⟨?_, ?_, ?_, ?_, ?_, ?_⟩ <;>
    exact readInt32LE_digits _ (by assumption) (by assumption)

/-- C5 witness: round trip of a concrete header with a negative field. -/
theorem header_roundtrip_witness :
    -2147483648 ≤ (640 : Int) ∧ (640 : Int) < 2147483648 ∧
    -2147483648 ≤ (-50 : Int) ∧ (-50 : Int) < 2147483648 ∧
    PgmUtils.Header.fromBuffer
        (PgmUtils.Header.toBuffer ⟨640, 480, 255, 1, -50, 200⟩)
      = ⟨640, 480, 255, 1, -50, 200⟩ :=
  ⟨by norm_num, by norm_num, by norm_num, by norm_num,
   header_roundtrip ⟨640, 480, 255, 1, -50, 200⟩
     (by norm_num) (by norm_num) (by norm_num) (by norm_num) (by norm_num) (by norm_num)
     (by norm_num) (by norm_num) (by norm_num) (by norm_num) (by norm_num) (by norm_num)⟩

/-! ## Claim theorems: receive validation -/

/-- C4 counterexample: a 26-byte stream whose header declares `w = 1`,
`h = 1` carries a 2-byte payload (`≠ w*h = 1`); the claim says it must be
rejected, but `receiveImageData` accepts it, because
`fullBuffer.slice(24, 24 + w*h)` silently truncates the excess. -/
theorem receiveImageData_accepts_excess :
    (PgmUtils.Header.toBuffer ⟨1, 1, 255, 0, 0, 0⟩ ++ [9, 10]).length = 26 ∧
    WorkerMain.receiveImageData (PgmUtils.Header.toBuffer ⟨1, 1, 255, 0, 0, 0⟩ ++ [9, 10])
      = Except.ok { w := 1, h := 1, maxv := 255, data := [9] } :=
  ⟨rfl, rfl⟩

/-- C4 amended: for a stream of at least 24 bytes with header product
`wh = w*h`, the receive step succeeds iff `0 ≤ wh` and the available
payload has at least `wh` bytes; a longer stream is accepted with the
excess ignored, and the error fires exactly when the payload is too short
(or `wh` is negative). -/
theorem receiveImageData_ok_iff (buf : List Nat) (h24 : 24 ≤ buf.length) :
    (WorkerMain.receiveImageData buf).isOk = true ↔
      (0 ≤ (PgmUtils.Header.fromBuffer (buf.take 24)).w
            * (PgmUtils.Header.fromBuffer (buf.take 24)).h ∧
       (PgmUtils.Header.fromBuffer (buf.take 24)).w
            * (PgmUtils.Header.fromBuffer (buf.take 24)).h ≤ (buf.length : Int) - 24) := by
  simp only [WorkerMain.receiveImageData]
  rw [if_neg (by omega)]
  generalize (PgmUtils.Header.fromBuffer (buf.take 24)).w
      * (PgmUtils.Header.fromBuffer (buf.take 24)).h = wh
  split_ifs with h
  · simp only [Except.isOk, Except.toBool, Bool.false_eq_true, false_iff]
    simp only [WorkerMain.jsSlice, List.length_drop, List.length_take] at h
    omega
  · simp only [Except.isOk, Except.toBool, true_iff]
    simp only [WorkerMain.jsSlice, List.length_drop, List.length_take] at h
    omega

/-- C4 witness: a short payload (3 bytes against `w*h = 4`) is rejected. -/
theorem receiveImageData_ok_iff_witness :
    24 ≤ (PgmUtils.Header.toBuffer ⟨2, 2, 255, 0, 0, 0⟩ ++ [1, 2, 3]).length ∧
    ((WorkerMain.receiveImageData
        (PgmUtils.Header.toBuffer ⟨2, 2, 255, 0, 0, 0⟩ ++ [1, 2, 3])).isOk = true ↔
      (0 ≤ (PgmUtils.Header.fromBuffer
              ((PgmUtils.Header.toBuffer ⟨2, 2, 255, 0, 0, 0⟩ ++ [1, 2, 3]).take 24)).w
            * (PgmUtils.Header.fromBuffer
              ((PgmUtils.Header.toBuffer ⟨2, 2, 255, 0, 0, 0⟩ ++ [1, 2, 3]).take 24)).h ∧
       (PgmUtils.Header.fromBuffer
              ((PgmUtils.Header.toBuffer ⟨2, 2, 255, 0, 0, 0⟩ ++ [1, 2, 3]).take 24)).w
            * (PgmUtils.Header.fromBuffer
              ((PgmUtils.Header.toBuffer ⟨2, 2, 255, 0, 0, 0⟩ ++ [1, 2, 3]).take 24)).h
          ≤ ((PgmUtils.Header.toBuffer ⟨2, 2, 255, 0, 0, 0⟩ ++ [1, 2, 3]).length : Int) - 24)) :=
  ⟨by decide, receiveImageData_ok_iff _ (by decide)⟩

/-! ## Claim theorems: CLI worker-count validation -/

/-- C8: the worker count defaults to `4` when the argument is absent, and
the range check rejects explicit out-of-range numbers — but a non-numeric
argument parses to `NaN`, and since both `NaN < 1` and `NaN > 32` are
`false` in JS, the invocation is *not* rejected, contradicting the claim. -/
theorem parseArgs_nthreads_nan_not_rejected :
    WorkerMain.parseNthreads none = some 4 ∧
    WorkerMain.parseNthreads (some "abc") = none ∧
    WorkerMain.nthreadsRejected (WorkerMain.parseNthreads (some "abc")) = false ∧
    WorkerMain.nthreadsRejected (some 0) = true ∧
    WorkerMain.nthreadsRejected (some 33) = true ∧
    WorkerMain.nthreadsRejected (some 4) = false :=
  ⟨rfl, rfl, rfl, rfl, rfl, rfl⟩

/-! ## Claim theorems: filter kernels -/

/-- C1: with thresholds `low = 50`, `high = 100`, the claim says the slice
transform writes `255` when the input byte is `≤ 50` or `≥ 100` and the
input byte otherwise. Evaluating both shipped `applySliceBlock` variants at
pixel value `30` (out of band) and `70` (in band): the `src/filters.js`
variant writes `0` out of band and `255` in band — contradicting its own
pseudo-code header comment — while the duplicate copy bundled after
`src/sender.js` writes `255` out of band and the original value in band,
exactly as the claim states. -/
theorem applySliceBlock_variants_at_scenario_pixels :
    (Filters.applySliceBlock (fun _ => 30) (fun _ => 7) 4 0 1 50 100).1 2 = 0 ∧
    (Filters.applySliceBlock (fun _ => 70) (fun _ => 7) 4 0 1 50 100).1 2 = 255 ∧
    (Sender.applySliceBlock (fun _ => 30) (fun _ => 7) 4 0 1 50 100).1 2 = 255 ∧
    (Sender.applySliceBlock (fun _ => 70) (fun _ => 7) 4 0 1 50 100).1 2 = 70 :=
  ⟨rfl, rfl, rfl, rfl⟩

/-- C9: applying `applyNegativeBlock` with `maxValue = 255` twice in
sequence (the first output buffer fed as input to the second application)
reproduces the original bytes at every pixel index of the row range, for
input bytes in `[0, 255]`. -/
theorem applyNegativeBlock_twice_id (inputData out1 out2 : Nat → Nat)
    (width rowStart rowEnd : Nat) (hle : rowStart ≤ rowEnd)
    (hbytes : ∀ j, rowStart * width ≤ j → j < rowEnd * width → inputData j ≤ 255) :
    ∀ j, rowStart * width ≤ j → j < rowEnd * width →
      (Filters.applyNegativeBlock
        (Filters.applyNegativeBlock inputData out1 width rowStart rowEnd 255).1
        out2 width rowStart rowEnd 255).1 j = inputData j := by
  intro j hj1 hj2
  have hse : rowStart * width ≤ rowEnd * width := Nat.mul_le_mul_right _ hle
  simp only [Filters.applyNegativeBlock, Filters.negLoop_eq_storeLoop]
  rw [storeLoop_value _ _ _ _ _ hj1 (by omega),
      storeLoop_value _ _ _ _ _ hj1 (by omega)]
  have hb := hbytes j hj1 hj2
  push_cast
  have h1 : ((255 : Int) - (inputData j : Int)) % 256 = 255 - (inputData j : Int) :=
    Int.emod_eq_of_lt (by omega) (by omega)
  rw [h1, Int.toNat_of_nonneg (by omega : (0 : Int) ≤ 255 - (inputData j : Int))]
  have h2 : ((255 : Int) - (255 - (inputData j : Int))) % 256
      = 255 - (255 - (inputData j : Int)) :=
    Int.emod_eq_of_lt (by omega) (by omega)
  rw [h2]
  omega

/-- C9 witness: the double negative at a concrete input. -/
theorem applyNegativeBlock_twice_id_witness :
    (0 : Nat) ≤ 1 ∧
    (Filters.applyNegativeBlock
      (Filters.applyNegativeBlock (fun j => j % 256) (fun _ => 0) 3 0 1 255).1
      (fun _ => 0) 3 0 1 255).1 2 = 2 :=
  ⟨Nat.zero_le 1,
   applyNegativeBlock_twice_id (fun j => j % 256) (fun _ => 0) (fun _ => 0) 3 0 1
     (Nat.zero_le 1) (fun j _ _ => Nat.le_of_lt_succ (Nat.mod_lt j (by omega)))
     2 (by omega) (by omega)⟩

/-- C10: both block kernels of `src/filters.js` write only output indices
in `[rowStart*width, rowEnd*width)` (every output byte outside that range
keeps its previous value) and return `(rowEnd - rowStart) * width`, the
number of pixels processed. The input buffer is passed read-only in the
embedding because neither source function ever assigns to `inputData`. -/
theorem applyBlock_writes_confined (inputData outputData : Nat → Nat)
    (width rowStart rowEnd maxValue : Nat) (a b : Int) (hle : rowStart ≤ rowEnd) :
    (∀ j, j < rowStart * width ∨ rowEnd * width ≤ j →
      (Filters.applyNegativeBlock inputData outputData width rowStart rowEnd maxValue).1 j
          = outputData j ∧
      (Filters.applySliceBlock inputData outputData width rowStart rowEnd a b).1 j
          = outputData j) ∧
    (Filters.applyNegativeBlock inputData outputData width rowStart rowEnd maxValue).2
        = (rowEnd - rowStart) * width ∧
    (Filters.applySliceBlock inputData outputData width rowStart rowEnd a b).2
        = (rowEnd - rowStart) * width := by
  have hse : rowStart * width ≤ rowEnd * width := Nat.mul_le_mul_right _ hle
  refine ⟨fun j hj => ⟨?_, ?_⟩, ?_, ?_⟩
  · simp only [Filters.applyNegativeBlock, Filters.negLoop_eq_storeLoop]
    exact storeLoop_frame _ _ _ _ _ (by omega)
  · simp only [Filters.applySliceBlock, Filters.sliceLoop_eq_storeLoop]
    exact storeLoop_frame _ _ _ _ _ (by omega)
  · simp only [Filters.applyNegativeBlock]
    exact (Nat.sub_mul _ _ _).symm
  · simp only [Filters.applySliceBlock]
    exact (Nat.sub_mul _ _ _).symm

/-- C10 witness: the frame property at a concrete call. -/
theorem applyBlock_writes_confined_witness :
    (1 : Nat) ≤ 2 ∧
    ((∀ j, j < 1 * 3 ∨ 2 * 3 ≤ j →
      (Filters.applyNegativeBlock (fun _ => 9) (fun _ => 4) 3 1 2 255).1 j = (fun _ => 4) j ∧
      (Filters.applySliceBlock (fun _ => 9) (fun _ => 4) 3 1 2 50 100).1 j = (fun _ => 4) j) ∧
    (Filters.applyNegativeBlock (fun _ => 9) (fun _ => 4) 3 1 2 255).2 = (2 - 1) * 3 ∧
    (Filters.applySliceBlock (fun _ => 9) (fun _ => 4) 3 1 2 50 100).2 = (2 - 1) * 3) :=
  ⟨by omega,
   applyBlock_writes_confined (fun _ => 9) (fun _ => 4) 3 1 2 255 50 100 (by omega)⟩

